import Mathlib

/-!
Verification of the windowed conversation-session engine of the
live-assist backend: the tool-call extractor of `agent_executor.py`,
the window processor of `lambda_function.py`, and the call aggregator
of `post-call-analytics.py`, shallowly embedded over a JSON value model.
-/

namespace LiveAssist

/-- JSON values, the data `json.loads`/`json.dumps` work on.
Numbers are modelled as integers (the payloads of this program only
use integral numbers). -/
inductive Json where
  | null : Json
  | bool : Bool → Json
  | num : Int → Json
  | str : String → Json
  | arr : List Json → Json
  | obj : List (String × Json) → Json

mutual

/-- `json.dumps` of a JSON value (Python default separators). -/
def dumps : Json → String
  | Json.null => "null"
  | Json.bool b => if b then "true" else "false"
  | Json.num n => toString n
  | Json.str s => "\"" ++ s ++ "\""
  | Json.arr xs => "[" ++ dumpsList xs ++ "]"
  | Json.obj fs => "\x7b" ++ dumpsObj fs ++ "\x7d"

def dumpsList : List Json → String
  | [] => ""
  | [x] => dumps x
  | x :: y :: rest => dumps x ++ ", " ++ dumpsList (y :: rest)

def dumpsObj : List (String × Json) → String
  | [] => ""
  | [(k, v)] => "\"" ++ k ++ "\": " ++ dumps v
  | (k, v) :: p :: rest => "\"" ++ k ++ "\": " ++ dumps v ++ ", " ++ dumpsObj (p :: rest)

end

/-- A string that is fed to `json.loads`, represented by its parse result:
`ok j` stands for any string that decodes to the value `j`; `bad s` stands
for the string `s` when it is not valid JSON. -/
inductive JContent where
  | ok : Json → JContent
  | bad : String → JContent

/-- Python exceptions that the embedded code can raise.
`paramValidationError` is botocore's `ParamValidationError`, raised by
boto3's client-side parameter validation before any request is sent; it
is a `BotoCoreError`, not a `ClientError`, so `except ClientError`
clauses do not catch it. -/
inductive PyErr where
  | typeError : PyErr
  | keyError : PyErr
  | jsonDecodeError : PyErr
  | paramValidationError : PyErr
deriving DecidableEq, Repr

/-- `json.loads` on a serialized string: decodes `ok j` to `j`, raises
`json.JSONDecodeError` (a `ValueError`) on invalid input. -/
def loads : JContent → Except PyErr Json
  | JContent.ok j => Except.ok j
  | JContent.bad _ => Except.error PyErr.jsonDecodeError

/-- Dictionary lookup `d[k]` returning `none` when `k` is absent or the
value is not a dict. -/
def jGet (j : Json) (k : String) : Option Json :=
  match j with
  | Json.obj fs => fs.lookup k
  | _ => none

/-- Python subscript `d[k]`: `KeyError` on a missing key of a dict,
`TypeError` when `d` is not a dict. -/
def getItem (j : Json) (k : String) : Except PyErr Json :=
  match j with
  | Json.obj fs =>
    match fs.lookup k with
    | some v => Except.ok v
    | none => Except.error PyErr.keyError
  | _ => Except.error PyErr.typeError

/-- pydantic validation of a `str` field: accepts exactly JSON strings. -/
def asString (j : Json) : Except PyErr String :=
  match j with
  | Json.str s => Except.ok s
  | _ => Except.error PyErr.typeError

/-- Python `x == s` for a JSON value `x` against a string literal `s`. -/
def jeqStr (j : Json) (s : String) : Bool :=
  match j with
  | Json.str t => t == s
  | _ => false

/-! ## Tool-call extractor (`agent_executor.py`, `Agent.extract_tool_calls_from_trace`) -/

/-- One requested action inside an assistant message: the langchain
`tool_call` dict `\x7bid, name, args\x7d`. -/
structure ToolCallReq where
  id : String
  name : String
  args : Json

/-- One entry of the raw execution trace (`model_trace['messages']`):
an assistant message optionally carrying requested tool calls, a tool
message carrying `tool_call_id` and serialized `content`, or any other
message kind (human/system), which carries neither attribute. -/
inductive TraceEntry where
  | assistant : List ToolCallReq → TraceEntry
  | toolMsg : String → JContent → TraceEntry
  | human : TraceEntry

/-- The `ToolCall` pydantic model of `agent_executor.py`. -/
structure ToolCall where
  name : String
  input : String
  output : String
  status : String
deriving DecidableEq, Repr

/-- The state of the Python variable `message` inside the extraction loop:
it initially holds the current trace entry (the loop variable, a message
object that `json.dumps` cannot serialize) and is reassigned to a JSON
value taken from a matched tool response. -/
inductive MsgVar where
  | pyObj : TraceEntry → MsgVar
  | json : Json → MsgVar

/-- `json.dumps(message)`: raises `TypeError` while `message` still holds
the raw message object, serializes the JSON value otherwise. -/
def dumpsVar : MsgVar → Except PyErr String
  | MsgVar.pyObj _ => Except.error PyErr.typeError
  | MsgVar.json j => Except.ok (dumps j)

/-- Lines 152-166: the status default and the look at the immediately
following entry (`messages[i + 1]`, passed as `next?`): on a matching
`tool_call_id` the content is parsed and the variable `message` (`mv`) is
reassigned to its `sources` or `message` field; otherwise both keep their
defaults.  Returns the pair (value of `status`, value of `message`). -/
def lookAtNext (next? : Option TraceEntry) (mv : MsgVar) (tc : ToolCallReq) :
    Except PyErr (Json × MsgVar) :=
  match next? with
  | some (TraceEntry.toolMsg tid content) =>
    if tid = tc.id then
      match loads content with
      | Except.error e => Except.error e
      | Except.ok toolResponse =>
        match getItem toolResponse "status" with
        | Except.error e => Except.error e
        | Except.ok statusJ =>
          if tc.name == "search_company_manuals" && jeqStr statusJ "success" then
            match getItem toolResponse "sources" with
            | Except.error e => Except.error e
            | Except.ok v => Except.ok (statusJ, MsgVar.json v)
          else
            match getItem toolResponse "message" with
            | Except.error e => Except.error e
            | Except.ok v => Except.ok (statusJ, MsgVar.json v)
    else Except.ok (Json.str "success", mv)
  | _ => Except.ok (Json.str "success", mv)

/-- The body of the inner `for tool_call in message.tool_calls` loop of
`extract_tool_calls_from_trace`, for one requested action: the look at the
following entry, then the construction of the appended `ToolCall`
(serializing `message` with `json.dumps` and validating `status`).
Returns the record together with the value of `message` after this
iteration. -/
def processToolCall (next? : Option TraceEntry) (mv : MsgVar) (tc : ToolCallReq) :
    Except PyErr (ToolCall × MsgVar) :=
  match lookAtNext next? mv tc with
  | Except.error e => Except.error e
  | Except.ok r =>
    match dumpsVar r.2 with
    | Except.error e => Except.error e
    | Except.ok out =>
      match asString r.1 with
      | Except.error e => Except.error e
      | Except.ok st =>
        Except.ok ({ name := tc.name, input := dumps tc.args, output := out, status := st }, r.2)

/-- The inner loop over all requested actions of one assistant entry,
threading the `message` variable. -/
def processEntry (next? : Option TraceEntry) (mv : MsgVar) :
    List ToolCallReq → Except PyErr (List ToolCall)
  | [] => Except.ok []
  | tc :: rest =>
    match processToolCall next? mv tc with
    | Except.error e => Except.error e
    | Except.ok r =>
      match processEntry next? r.2 rest with
      | Except.error e => Except.error e
      | Except.ok more => Except.ok (r.1 :: more)

/-- The outer `for i, message in enumerate(messages)` loop, in structural
form: each entry is processed together with the entry immediately
following it (`messages[i + 1]` is `rest.head?`).  The literal indexed
rendering of the loop is `extractFrom` below, proven equal to this one
(`extractFrom_eq_extractAux`). -/
def extractAux : List TraceEntry → Except PyErr (List ToolCall)
  | [] => Except.ok []
  | TraceEntry.assistant tcs :: rest =>
    if tcs.isEmpty then extractAux rest
    else
      match processEntry rest.head? (MsgVar.pyObj (TraceEntry.assistant tcs)) tcs with
      | Except.error e => Except.error e
      | Except.ok rs =>
        match extractAux rest with
        | Except.error e => Except.error e
        | Except.ok more => Except.ok (rs ++ more)
  | _ :: rest => extractAux rest

/-- The outer loop of `extract_tool_calls_from_trace` rendered literally
with its running index: `messages[i]` is the loop variable `message`,
`messages[i + 1]?` the lookahead `messages[i + 1]`. -/
def extractFrom (messages : List TraceEntry) (i : Nat) :
    Except PyErr (List ToolCall) :=
  if h : i < messages.length then
    match messages[i] with
    | TraceEntry.assistant tcs =>
      if tcs.isEmpty then extractFrom messages (i + 1)
      else
        match processEntry messages[i + 1]? (MsgVar.pyObj (TraceEntry.assistant tcs)) tcs with
        | Except.error e => Except.error e
        | Except.ok rs =>
          match extractFrom messages (i + 1) with
          | Except.error e => Except.error e
          | Except.ok more => Except.ok (rs ++ more)
    | _ => extractFrom messages (i + 1)
  else Except.ok []
termination_by messages.length - i

/-- `Agent.extract_tool_calls_from_trace`: `model_trace` is the agent
response dict, `none` standing for a dict without a `'messages'` key. -/
def extract_tool_calls_from_trace (model_trace : Option (List TraceEntry)) :
    Except PyErr (List ToolCall) :=
  match model_trace with
  | none => Except.ok []
  | some messages => extractAux messages

/-- Sequential composition of two extraction results (the records of a
prefix of the trace followed by the records of the remainder), used to
state that the extractor consults only the entry immediately following an
assistant entry. -/
def combineResults (a b : Except PyErr (List ToolCall)) : Except PyErr (List ToolCall) :=
  match a with
  | Except.error e => Except.error e
  | Except.ok rs =>
    match b with
    | Except.error e => Except.error e
    | Except.ok more => Except.ok (rs ++ more)

/-! ## Window processor (`lambda_function.py`) -/

/-- One item of the `call-records` DynamoDB table, as written by step 7 of
`lambda_handler`: the `turns`, `aiTips` and `activityFeed` attributes hold
serialized JSON strings (attribute type `S`). -/
structure WindowItem where
  call_id : String
  window_number : Int
  turns : JContent
  aiTips : JContent
  activityFeed : JContent
  created_at : String

/-- The DynamoDB `Query` on `call-records` with key condition
`call_id = :cid AND window_number < :w`: per the store contract it returns
the matching items of the table in ascending sort-key (`window_number`)
order.  `cid` is the raw payload value (the handler does not validate its
type; a non-string key matches nothing). -/
def ddb_query_windows (table : List WindowItem) (cid : Json) (w : Int) : List WindowItem :=
  List.insertionSort (fun a b => a.window_number ≤ b.window_number)
    (table.filter (fun it => jeqStr cid it.call_id && decide (it.window_number < w)))

/-- `get_call_history` of `lambda_function.py`: the query result, or `[]`
when the query raises a `ClientError` (modelled by `storeOk = false`). -/
def get_call_history (storeOk : Bool) (table : List WindowItem) (cid : Json) (w : Int) :
    List WindowItem :=
  if storeOk then ddb_query_windows table cid w else []

/-- One decoded entry of the `call_history` list built in step 2 of
`lambda_handler`. -/
structure HistoryEntry where
  turns : Json
  aiTips : Json
  activityFeed : Json

/-- Decoding of one fetched item (step 2 of `lambda_handler`):
`json.loads` of the `turns`, `aiTips` and `activityFeed` strings; a
malformed stored string raises out of the handler. -/
def decodeWindow (it : WindowItem) : Except PyErr HistoryEntry :=
  match loads it.turns with
  | Except.error e => Except.error e
  | Except.ok t =>
    match loads it.aiTips with
    | Except.error e => Except.error e
    | Except.ok a =>
      match loads it.activityFeed with
      | Except.error e => Except.error e
      | Except.ok f => Except.ok { turns := t, aiTips := a, activityFeed := f }

def decodeWindows : List WindowItem → Except PyErr (List HistoryEntry)
  | [] => Except.ok []
  | it :: rest =>
    match decodeWindow it with
    | Except.error e => Except.error e
    | Except.ok h =>
      match decodeWindows rest with
      | Except.error e => Except.error e
      | Except.ok hs => Except.ok (h :: hs)

/-- One item of the `call-analytics` DynamoDB table, in the shape
`get_past_call_summary`'s (dead) item-processing code expects: `memory`
holding a serialized JSON string.  The rows only serve to state that a
customer's record exists in the store; the reader never reaches them
(see `get_past_call_summary`). -/
structure AnalyticsItem where
  client_email : String
  created_at : String
  call_id : String
  memory : JContent

/-- `get_past_call_summary` of `lambda_function.py`.  The source calls
`dynamodb_client.scan(TableName=..., FilterExpression=...,
ExpressionAttributeValues=..., ScanIndexForward=False, Limit=1)`.
`ScanIndexForward` is a Query-only parameter — it is not part of the
DynamoDB `Scan` API — so boto3's client-side parameter validation raises
`ParamValidationError` on every invocation, before any request is sent
to the store.  That exception is a `BotoCoreError`, not a `ClientError`,
so the function's `except ClientError` clause does not catch it and the
function never returns: its item processing, memory extraction, and the
`ClientError` degrade to an empty dict are all dead code.  The `table`
and `email` arguments mirror the store state and the argument the source
passes; neither is ever read. -/
def get_past_call_summary (_table : List AnalyticsItem) (_email : Json) :
    Except PyErr Json :=
  Except.error PyErr.paramValidationError

/-- The `AiTip` pydantic model (tag is one of Urgent/Suggestion/Info,
enforced by the reasoning contract; kept as a plain string here). -/
structure AiTip where
  tag : String
  content : String
deriving DecidableEq, Repr

/-- The reasoning service's response: `structured_response.aiTips`
together with the raw trace (`none` when the response dict carries no
`'messages'` key). -/
structure AgentResponse where
  aiTips : List AiTip
  messages : Option (List TraceEntry)

/-- The input document assembled in step 4 of `lambda_handler`. -/
structure AgentInput where
  turns : Json
  call_history : List HistoryEntry
  past_call_summary : Json

/-- External collaborators of one `lambda_handler` invocation: the two
table states, whether the history query or the window write raises a
`ClientError`, and the outcome of the reasoning invocation
(`Except.error` = the agent call raised). -/
structure Env where
  callRecords : List WindowItem
  analytics : List AnalyticsItem
  historyOk : Bool
  putOk : Bool
  agentResp : AgentInput → Except Unit AgentResponse

/-- External calls actually issued by the handler, in order.  The
analytics scan never appears: boto3 rejects its parameters client-side
before any request is sent (see `get_past_call_summary`). -/
inductive ExtCall where
  | historyQuery : ExtCall
  | agentInvoke : ExtCall
  | historyPut : Bool → ExtCall
deriving DecidableEq, Repr

/-- The handler's HTTP outcome: 400 bad request, 502 agent processing
error, or 200 with the computed tips and activity feed in the body. -/
inductive HandlerOutcome where
  | badRequest : HandlerOutcome
  | upstreamError : HandlerOutcome
  | success : List AiTip → List ToolCall → HandlerOutcome
deriving DecidableEq, Repr

/-- The parsed fields of a valid payload (step 1 of `lambda_handler`). -/
structure Payload where
  call_id : Json
  window_num : Int
  turns : Json
  client_email : Json

/-- The digits of a Python integer literal after its first digit:
further digits, optionally separated by single underscores (each
underscore must be followed by a digit). -/
def pyDigitsRest (acc : Nat) : List Char → Option Nat
  | [] => some acc
  | c :: cs =>
    if c.isDigit then pyDigitsRest (acc * 10 + (c.toNat - 48)) cs
    else if c = '_' then
      match cs with
      | d :: cs' =>
        if d.isDigit then pyDigitsRest (acc * 10 + (d.toNat - 48)) cs' else none
      | [] => none
    else none

/-- An unsigned Python integer literal: at least one digit, single
underscores allowed between digits (as in `1_000`). -/
def pyNatLit : List Char → Option Nat
  | [] => none
  | c :: cs => if c.isDigit then pyDigitsRest (c.toNat - 48) cs else none

/-- Python `int(s)` on a string: surrounding whitespace is stripped, one
optional `+`/`-` sign is allowed, then a digit string with optional
single underscore separators; anything else raises `ValueError`. -/
def pyIntOfString (s : String) : Option Int :=
  let t := s.trim
  if t.startsWith "-" then (pyNatLit (t.drop 1).toList).map (fun n => -(n : Int))
  else if t.startsWith "+" then (pyNatLit (t.drop 1).toList).map (fun n => (n : Int))
  else (pyNatLit t.toList).map (fun n => (n : Int))

/-- Python `int(x)` on a JSON value, `none` when it raises
`ValueError`/`TypeError`. -/
def pyInt : Json → Option Int
  | Json.num n => some n
  | Json.str s => pyIntOfString s
  | Json.bool b => some (if b then 1 else 0)
  | _ => none

/-- Step 1 of `lambda_handler` (lines 67-75): each field is read with a
plain subscript (`KeyError` when missing), `window_num` is passed through
`int(...)`; any of `KeyError`/`ValueError`/`TypeError` is caught and
turned into the 400 response.  `client_email` is read unconditionally
(the source comments it as a required parameter). -/
def parsePayload (payload : Json) : Except Unit Payload :=
  match jGet payload "call_id" with
  | none => Except.error ()
  | some cid =>
    match jGet payload "window_num" with
    | none => Except.error ()
    | some wj =>
      match pyInt wj with
      | none => Except.error ()
      | some w =>
        match jGet payload "turns" with
        | none => Except.error ()
        | some turns =>
          match jGet payload "client_email" with
          | none => Except.error ()
          | some ce =>
            Except.ok { call_id := cid, window_num := w, turns := turns, client_email := ce }

/-- `analyze_transcript` of `agent_executor.py`: the externally produced
response (or its exception), followed by `extract_tool_calls_from_trace`
over the returned trace.  Any exception is caught by the handler's
`except Exception` and surfaces as the 502 outcome. -/
def analyze_transcript (resp : Except Unit AgentResponse) :
    Except Unit (List AiTip × List ToolCall) :=
  match resp with
  | Except.error _ => Except.error ()
  | Except.ok r =>
    match extract_tool_calls_from_trace r.messages with
    | Except.error _ => Except.error ()
    | Except.ok tcs => Except.ok (r.aiTips, tcs)

/-- `lambda_handler` of `lambda_function.py`, returning the outcome (or
an uncaught exception) together with the ordered log of external calls
actually issued.  The argument `payload` is the JSON-decoded request
body (a body that fails to decode raises `ValueError`, caught by the
same `except` into the 400 response).  Step 3's scan raises its
`ParamValidationError` client-side, so no analytics call is logged and
the exception escapes the handler (no enclosing `try`); the agent and
`put_item` steps below it are dead code in the current program,
translated nonetheless.  The `put_item` of step 7 would be attempted
exactly once; a `ClientError` there (`putOk = false`) is logged and
ignored. -/
def lambda_handler (env : Env) (payload : Json) :
    Except PyErr HandlerOutcome × List ExtCall :=
  match parsePayload payload with
  | Except.error _ => (Except.ok HandlerOutcome.badRequest, [])
  | Except.ok p =>
    match decodeWindows (get_call_history env.historyOk env.callRecords p.call_id p.window_num) with
    | Except.error e => (Except.error e, [ExtCall.historyQuery])
    | Except.ok callHistory =>
      match get_past_call_summary env.analytics p.client_email with
      | Except.error e => (Except.error e, [ExtCall.historyQuery])
      | Except.ok past =>
        match analyze_transcript (env.agentResp
            { turns := p.turns, call_history := callHistory, past_call_summary := past }) with
        | Except.error _ =>
          (Except.ok HandlerOutcome.upstreamError,
           [ExtCall.historyQuery, ExtCall.agentInvoke])
        | Except.ok r =>
          (Except.ok (HandlerOutcome.success r.1 r.2),
           [ExtCall.historyQuery, ExtCall.agentInvoke,
            ExtCall.historyPut env.putOk])

/-- The condition under which step 1 of `lambda_handler` raises (and the
request is answered 400): one of the four read fields is missing (or the
payload is not an object), or `int(window_num)` fails. -/
def RequiredFieldBad (payload : Json) : Prop :=
  jGet payload "call_id" = none ∨
  (∃ wj, jGet payload "window_num" = some wj ∧ pyInt wj = none) ∨
  jGet payload "window_num" = none ∨
  jGet payload "turns" = none ∨
  jGet payload "client_email" = none

/-! ## Call aggregator (`post-call-analytics.py`) -/

/-- One entry of the merged per-window payload handed to the summarizer
(step 2 of the post-call `lambda_handler`). -/
structure PayloadEntry where
  activityFeed : Json
  aiTips : Json
  turns : Json

/-- The `Query` on `call-records` with key condition `call_id = :cid` and
`ScanIndexForward=True`: all windows of the call, ascending by
`window_number`. -/
def pca_fetch (table : List WindowItem) (cid : String) : List WindowItem :=
  List.insertionSort (fun a b => a.window_number ≤ b.window_number)
    (table.filter (fun it => it.call_id == cid))

/-- Decoding of one window into the summarizer payload entry
(`json.loads` of each stored string, in source order). -/
def pca_decode (it : WindowItem) : Except PyErr PayloadEntry :=
  match loads it.activityFeed with
  | Except.error e => Except.error e
  | Except.ok af =>
    match loads it.aiTips with
    | Except.error e => Except.error e
    | Except.ok tips =>
      match loads it.turns with
      | Except.error e => Except.error e
      | Except.ok ts => Except.ok { activityFeed := af, aiTips := tips, turns := ts }

def pca_decodeAll : List WindowItem → Except PyErr (List PayloadEntry)
  | [] => Except.ok []
  | it :: rest =>
    match pca_decode it with
    | Except.error e => Except.error e
    | Except.ok p =>
      match pca_decodeAll rest with
      | Except.error e => Except.error e
      | Except.ok ps => Except.ok (p :: ps)

/-- The merged per-window timeline built by the post-call aggregator. -/
def pca_payload (table : List WindowItem) (cid : String) :
    Except PyErr (List PayloadEntry) :=
  pca_decodeAll (pca_fetch table cid)

/-! ## Statement-side descriptions of the extractor's matched records -/

/-- The `status` string of a parsed tool response (description function
for theorem statements; the default never fires under the well-formedness
hypotheses used below). -/
def statusStr (j : Json) : String :=
  match jGet j "status" with
  | some (Json.str s) => s
  | _ => "success"

/-- The field of a matched tool response that the extractor serializes
into the record's `output`: `sources` for a successful manuals search,
`message` otherwise. -/
def matchField (tc : ToolCallReq) (j : Json) : Json :=
  if tc.name = "search_company_manuals" ∧ statusStr j = "success" then
    (jGet j "sources").getD Json.null
  else
    (jGet j "message").getD Json.null

/-- The record the extractor is expected to emit for action `tc` matched
with a result whose content parses to `j`. -/
def expectedRecord (tc : ToolCallReq) (j : Json) : ToolCall :=
  { name := tc.name
  , input := dumps tc.args
  , output := dumps (matchField tc j)
  , status := statusStr j }

/-- `e` is a well-formed action-result entry for the action `tc`: a tool
message carrying `tc`'s identifier whose content parses to an object with
a string `status` and the field the extractor will read. -/
def WellMatchedEntry (tc : ToolCallReq) (e : TraceEntry) : Prop :=
  ∃ j s, e = TraceEntry.toolMsg tc.id (JContent.ok j) ∧
    jGet j "status" = some (Json.str s) ∧
    ((tc.name = "search_company_manuals" ∧ s = "success") →
      (jGet j "sources").isSome = true) ∧
    (¬(tc.name = "search_company_manuals" ∧ s = "success") →
      (jGet j "message").isSome = true)

/-- Every requested action of the trace is immediately followed by its
well-formed matching result entry (so in particular each assistant entry
carries at most one action). -/
def AllMatched : List TraceEntry → Prop
  | [] => True
  | TraceEntry.assistant [] :: rest => AllMatched rest
  | TraceEntry.assistant [tc] :: e :: rest => WellMatchedEntry tc e ∧ AllMatched (e :: rest)
  | TraceEntry.assistant _ :: _ => False
  | _ :: rest => AllMatched rest

/-- The records an `AllMatched` trace is expected to produce, in request
order. -/
def expectedOut : List TraceEntry → List ToolCall
  | TraceEntry.assistant [tc] :: TraceEntry.toolMsg tid (JContent.ok j) :: rest =>
    expectedRecord tc j :: expectedOut (TraceEntry.toolMsg tid (JContent.ok j) :: rest)
  | _ :: rest => expectedOut rest
  | [] => []

/-- All requested actions of a trace, in request order. -/
def requestedActions : List TraceEntry → List ToolCallReq
  | [] => []
  | TraceEntry.assistant tcs :: rest => tcs ++ requestedActions rest
  | _ :: rest => requestedActions rest

/-! ## Concrete fixtures for counterexamples and witnesses -/

/-- A trace with a single requested action and no following entry. -/
def trace1 : List TraceEntry :=
  [TraceEntry.assistant
    [{ id := "call_1", name := "get_contact_by_email"
     , args := Json.obj [("email", Json.str "sarah@x.com")] }]]

/-- An environment whose stores are empty and whose reasoning invocation
would succeed with no tips and an empty trace. -/
def envA : Env :=
  { callRecords := [], analytics := [], historyOk := true
  , putOk := true
  , agentResp := fun _ => Except.ok { aiTips := [], messages := some [] } }

/-- A payload whose `window_num` is the negative integer `-1` and whose
`turns` is the empty list. -/
def payNegWindow : Json :=
  Json.obj [("call_id", Json.str "c1"), ("window_num", Json.num (-1)),
            ("turns", Json.arr []), ("client_email", Json.str "sarah@x.com")]

/-- A payload that omits `client_email` but carries every other field. -/
def payNoEmail : Json :=
  Json.obj [("call_id", Json.str "c1"), ("window_num", Json.num 0),
            ("turns", Json.arr [Json.obj [("speaker", Json.str "client"),
                                          ("transcript", Json.str "hello")]])]

/-- A well-formed payload for window 1 of call `c1`. -/
def payGood : Json :=
  Json.obj [("call_id", Json.str "c1"), ("window_num", Json.num 1),
            ("turns", Json.arr []), ("client_email", Json.str "sarah@x.com")]

/-- The parsed form of `payGood`. -/
def pGood : Payload :=
  { call_id := Json.str "c1", window_num := 1, turns := Json.arr []
  , client_email := Json.str "sarah@x.com" }

/-- A non-empty MemoryBox value. -/
def memM : Json :=
  Json.obj [("deliverables", Json.arr [Json.str "send invoice"]),
            ("improvementAreas", Json.arr [])]

/-- An analytics record of a different customer, first in table order. -/
def anOther : AnalyticsItem :=
  { client_email := "other@x.com", created_at := "2025-06-01T00:00:00"
  , call_id := "call-9"
  , memory := JContent.ok (Json.obj [("deliverables", Json.arr []),
                                     ("improvementAreas", Json.arr [])]) }

/-- The target customer's analytics record, holding memory `memM`. -/
def anTarget : AnalyticsItem :=
  { client_email := "sarah@x.com", created_at := "2025-06-02T00:00:00"
  , call_id := "call-1", memory := JContent.ok memM }

/-- An analytics table in which the target customer's record is not the
first item in scan order. -/
def analyticsTable : List AnalyticsItem := [anOther, anTarget]

/-- A failed CRM action and its result content. -/
def actA : ToolCallReq :=
  { id := "id1", name := "create_support_ticket"
  , args := Json.obj [("subject", Json.str "dashboard broken")] }

def contentA : Json :=
  Json.obj [("status", Json.str "failed"), ("message", Json.str "CRM unavailable")]

/-- A successful manuals search and its result content. -/
def actB : ToolCallReq :=
  { id := "id2", name := "search_company_manuals"
  , args := Json.obj [("query", Json.str "refund policy")] }

def contentB : Json :=
  Json.obj [("status", Json.str "success"), ("message", Json.str "found"),
            ("sources", Json.arr [Json.str "manual.pdf"])]

/-- A trace in which every requested action is immediately followed by its
matching result. -/
def traceMatched : List TraceEntry :=
  [TraceEntry.human,
   TraceEntry.assistant [actA], TraceEntry.toolMsg "id1" (JContent.ok contentA),
   TraceEntry.assistant [actB], TraceEntry.toolMsg "id2" (JContent.ok contentB)]

/-- A stored window of call `c1` with the given number and one tip tag. -/
def mkWindow (cid : String) (n : Int) (tip : String) : WindowItem :=
  { call_id := cid, window_number := n
  , turns := JContent.ok (Json.arr [])
  , aiTips := JContent.ok (Json.arr [Json.str tip])
  , activityFeed := JContent.ok (Json.arr [])
  , created_at := "2025-06-01T00:00:00" }

def w0 : WindowItem := mkWindow "c1" 0 "A"
def w1 : WindowItem := mkWindow "c1" 1 "B"
def w2 : WindowItem := mkWindow "c1" 2 "C"
def wOther : WindowItem := mkWindow "c2" 0 "X"

/-- A call-records table holding windows 2, 0, 1 of call `c1` (plus a
window of another call) in scrambled physical order. -/
def windowTable : List WindowItem := [w2, wOther, w0, w1]

/-- An environment for a valid request: empty stores, the write failing
(`putOk = false`), and a reasoning invocation that would succeed with one
tip and the matched trace above. -/
def envB : Env :=
  { callRecords := [], analytics := [], historyOk := true
  , putOk := false
  , agentResp := fun _ =>
      Except.ok { aiTips := [{ tag := "Info", content := "escalate" }]
                , messages := some traceMatched } }

/-- An environment whose analytics table holds `analyticsTable`. -/
def envC : Env :=
  { callRecords := [], analytics := analyticsTable, historyOk := true
  , putOk := true
  , agentResp := fun _ => Except.ok { aiTips := [], messages := some [] } }

/-! ## Theorems -/

/-- The literal indexed outer loop agrees with its structural form. -/
theorem extractFrom_eq_extractAux (messages : List TraceEntry) :
    ∀ i, extractFrom messages i = extractAux (messages.drop i) := by
  have key : ∀ n i, messages.length - i ≤ n →
      extractFrom messages i = extractAux (messages.drop i) := by
    intro n
    induction n with
    | zero =>
      intro i hi
      have hge : messages.length ≤ i := by omega
      rw [extractFrom, dif_neg (by omega : ¬i < messages.length),
        List.drop_eq_nil_of_le hge]
      rfl
    | succ n ih =>
      intro i _
      by_cases h : i < messages.length
      · have hdrop : messages.drop i = messages[i] :: messages.drop (i + 1) :=
          List.drop_eq_getElem_cons h
        have hnext : messages[i + 1]? = (messages.drop (i + 1)).head? :=
          (List.head?_drop messages (i + 1)).symm
        cases hx : messages[i] with
        | assistant tcs =>
          rw [extractFrom, dif_pos h, hx, hdrop, hx,
            ih (i + 1) (by omega), hnext, extractAux]
        | toolMsg tid c =>
          rw [extractFrom, dif_pos h, hx, hdrop, hx,
            ih (i + 1) (by omega), extractAux]
          exact fun _ heq => nomatch heq
        | human =>
          rw [extractFrom, dif_pos h, hx, hdrop, hx,
            ih (i + 1) (by omega), extractAux]
          exact fun _ heq => nomatch heq
      · rw [extractFrom, dif_neg h,
          List.drop_eq_nil_of_le (by omega : messages.length ≤ i)]
        rfl
  intro i
  exact key (messages.length - i) i le_rfl

/-- The extractor agrees with its literal indexed rendering. -/
theorem extract_eq_extractFrom (messages : List TraceEntry) :
    extract_tool_calls_from_trace (some messages) = extractFrom messages 0 := by
  rw [extractFrom_eq_extractAux messages 0, List.drop_zero]
  rfl

/-- C1: refuted — on a trace whose requested action has no immediately
following matching entry, the extractor does not emit a fallback record
with empty output and default `success` status: the fallback path
serializes the loop variable `message` (still the raw assistant message
object), so `json.dumps` raises `TypeError`. -/
theorem c1_unmatched_action_raises :
    extract_tool_calls_from_trace (some trace1) = Except.error PyErr.typeError := by
  rfl

/-! ### Matched-pair extraction (claims C5, C6, C10) -/

/-- A successful `jGet` lookup gives a successful subscript access. -/
theorem jGet_getItem {j : Json} {k : String} {v : Json} (h : jGet j k = some v) :
    getItem j k = Except.ok v := by
  cases j <;> simp [jGet] at h
  simp [getItem, h]

/-- One inner-loop iteration on an action whose well-formed matching
result entry is the lookahead entry: the emitted record is
`expectedRecord` and the variable `message` is left holding the selected
response field. -/
theorem processToolCall_matched (tc : ToolCallReq) (j : Json) (s : String) (mv : MsgVar)
    (hs : jGet j "status" = some (Json.str s))
    (hsrc : (tc.name = "search_company_manuals" ∧ s = "success") →
      (jGet j "sources").isSome = true)
    (hmsg : ¬(tc.name = "search_company_manuals" ∧ s = "success") →
      (jGet j "message").isSome = true) :
    processToolCall (some (TraceEntry.toolMsg tc.id (JContent.ok j))) mv tc =
      Except.ok (expectedRecord tc j, MsgVar.json (matchField tc j)) := by
  have hst : statusStr j = s := by rw [statusStr, hs]
  by_cases hc : tc.name = "search_company_manuals" ∧ s = "success"
  · obtain ⟨v, hv⟩ := Option.isSome_iff_exists.mp (hsrc hc)
    have hcond : (tc.name == "search_company_manuals" && jeqStr (Json.str s) "success") = true := by
      simp [jeqStr, hc.1, hc.2]
    simp only [processToolCall, lookAtNext, if_pos rfl, loads, jGet_getItem hs, hcond,
      if_true, jGet_getItem hv, dumpsVar, asString, expectedRecord, matchField, hst,
      if_pos hc, hv, Option.getD]
  · have hcond : (tc.name == "search_company_manuals" && jeqStr (Json.str s) "success") = false := by
      rcases not_and_or.mp hc with h1 | h2
      · simp [jeqStr, h1]
      · simp [jeqStr, h2]
    obtain ⟨v, hv⟩ := Option.isSome_iff_exists.mp (hmsg hc)
    simp only [processToolCall, lookAtNext, if_pos rfl, loads, jGet_getItem hs, hcond,
      Bool.false_eq_true, if_false, if_true, jGet_getItem hv, dumpsVar, asString,
      expectedRecord, matchField, hst, if_neg hc, hv, Option.getD]

/-- On an `AllMatched` trace the extractor returns exactly the expected
records. -/
theorem extractAux_allMatched (msgs : List TraceEntry) (hm : AllMatched msgs) :
    extractAux msgs = Except.ok (expectedOut msgs) := by
  have key : ∀ n (l : List TraceEntry), l.length ≤ n → AllMatched l →
      extractAux l = Except.ok (expectedOut l) := by
    intro n
    induction n with
    | zero =>
      intro l hl _
      have h0 : l = [] := List.length_eq_zero.mp (Nat.le_zero.mp hl)
      subst h0; rfl
    | succ n ih =>
      intro l hl hm
      cases l with
      | nil => rfl
      | cons e rest =>
        have hlen : rest.length ≤ n := by
          simp only [List.length_cons] at hl; omega
        cases e with
        | human => exact ih rest hlen hm
        | toolMsg tid c => exact ih rest hlen hm
        | assistant tcs =>
          cases tcs with
          | nil => exact ih rest hlen hm
          | cons tc tcs' =>
            cases tcs' with
            | cons tc2 tcs'' => exact absurd hm (fun h => h)
            | nil =>
              cases rest with
              | nil => exact absurd hm (fun h => h)
              | cons e' rest' =>
                obtain ⟨hwm, hrest⟩ := hm
                obtain ⟨j, s, he, hs, hsrc, hmsg⟩ := hwm
                subst he
                have hproc := processToolCall_matched tc j s
                  (MsgVar.pyObj (TraceEntry.assistant [tc])) hs hsrc hmsg
                have hih := ih (TraceEntry.toolMsg tc.id (JContent.ok j) :: rest') hlen hrest
                show (match processEntry (some (TraceEntry.toolMsg tc.id (JContent.ok j)))
                        (MsgVar.pyObj (TraceEntry.assistant [tc])) [tc] with
                  | Except.error e => Except.error e
                  | Except.ok rs =>
                    match extractAux (TraceEntry.toolMsg tc.id (JContent.ok j) :: rest') with
                    | Except.error e => Except.error e
                    | Except.ok more => Except.ok (rs ++ more)) = _
                simp only [processEntry, hproc, hih]
                rfl
  exact key msgs.length msgs le_rfl hm

/-- On an `AllMatched` trace, one record is expected per requested
action. -/
theorem expectedOut_length (msgs : List TraceEntry) (hm : AllMatched msgs) :
    (expectedOut msgs).length = (requestedActions msgs).length := by
  have key : ∀ n (l : List TraceEntry), l.length ≤ n → AllMatched l →
      (expectedOut l).length = (requestedActions l).length := by
    intro n
    induction n with
    | zero =>
      intro l hl _
      have h0 : l = [] := List.length_eq_zero.mp (Nat.le_zero.mp hl)
      subst h0; rfl
    | succ n ih =>
      intro l hl hm
      cases l with
      | nil => rfl
      | cons e rest =>
        have hlen : rest.length ≤ n := by
          simp only [List.length_cons] at hl; omega
        cases e with
        | human => exact ih rest hlen hm
        | toolMsg tid c => exact ih rest hlen hm
        | assistant tcs =>
          cases tcs with
          | nil => exact ih rest hlen hm
          | cons tc tcs' =>
            cases tcs' with
            | cons tc2 tcs'' => exact absurd hm (fun h => h)
            | nil =>
              cases rest with
              | nil => exact absurd hm (fun h => h)
              | cons e' rest' =>
                obtain ⟨hwm, hrest⟩ := hm
                obtain ⟨j, s, he, hs, hsrc, hmsg⟩ := hwm
                subst he
                have hih := ih (TraceEntry.toolMsg tc.id (JContent.ok j) :: rest') hlen hrest
                show (expectedRecord tc j ::
                    expectedOut (TraceEntry.toolMsg tc.id (JContent.ok j) :: rest')).length
                    = (tc :: requestedActions (TraceEntry.toolMsg tc.id (JContent.ok j) :: rest')).length
                simp only [List.length_cons, hih]
  exact key msgs.length msgs le_rfl hm

/-- A trace with no requested actions yields no records. -/
theorem extractAux_no_actions : ∀ msgs : List TraceEntry, requestedActions msgs = [] →
    extractAux msgs = Except.ok [] := by
  intro msgs
  induction msgs with
  | nil => exact fun _ => rfl
  | cons e rest ih =>
    cases e with
    | human => exact fun h => ih h
    | toolMsg tid c => exact fun h => ih h
    | assistant tcs =>
      intro h
      obtain ⟨h1, h3⟩ := List.append_eq_nil.mp h
      subst h1
      exact ih h3

/-- C5: for every trace in which each requested action's result entry
immediately follows its assistant entry and carries the matching
identifier (and well-formed content), the extractor succeeds and produces
exactly one record per requested action, in request order, each built by
`expectedRecord` (name = the action's name, input = the serialized
argument map, status = the matched result's status, output per the
`matchField` rule); a trace with no requested actions yields the empty
sequence. -/
theorem c5_matched_trace_extraction (msgs : List TraceEntry) (hm : AllMatched msgs) :
    extract_tool_calls_from_trace (some msgs) = Except.ok (expectedOut msgs) ∧
    (expectedOut msgs).length = (requestedActions msgs).length ∧
    (requestedActions msgs = [] → extract_tool_calls_from_trace (some msgs) = Except.ok []) :=
  ⟨extractAux_allMatched msgs hm, expectedOut_length msgs hm,
   fun hreq => extractAux_no_actions msgs hreq⟩

/-- Witness for C5 at the concrete two-action trace `traceMatched`. -/
theorem c5_witness :
    AllMatched traceMatched ∧
    (extract_tool_calls_from_trace (some traceMatched) = Except.ok (expectedOut traceMatched) ∧
     (expectedOut traceMatched).length = (requestedActions traceMatched).length ∧
     (requestedActions traceMatched = [] →
       extract_tool_calls_from_trace (some traceMatched) = Except.ok [])) :=
  have hm : AllMatched traceMatched :=
    ⟨⟨contentA, "failed", rfl, rfl, fun h => absurd h.1 (by decide), fun _ => rfl⟩,
     ⟨contentB, "success", rfl, rfl, fun _ => rfl, fun _ => rfl⟩, trivial⟩
  ⟨hm, c5_matched_trace_extraction traceMatched hm⟩

/-- C6: for every matched action-result pair (universally quantified
action and parsed content), the emitted record's output is the serialized
`sources` field when the tool is the manuals-search tool and the status is
`success`, and the serialized `message` field for any other tool or any
non-success status; the status is the matched result's status either
way. -/
theorem c6_output_field_selection (tc : ToolCallReq) (j : Json) (s : String)
    (hs : jGet j "status" = some (Json.str s)) :
    ((tc.name = "search_company_manuals" ∧ s = "success") →
      ∀ v, jGet j "sources" = some v →
        extract_tool_calls_from_trace
            (some [TraceEntry.assistant [tc], TraceEntry.toolMsg tc.id (JContent.ok j)]) =
          Except.ok [{ name := tc.name, input := dumps tc.args
                     , output := dumps v, status := s }]) ∧
    (¬(tc.name = "search_company_manuals" ∧ s = "success") →
      ∀ v, jGet j "message" = some v →
        extract_tool_calls_from_trace
            (some [TraceEntry.assistant [tc], TraceEntry.toolMsg tc.id (JContent.ok j)]) =
          Except.ok [{ name := tc.name, input := dumps tc.args
                     , output := dumps v, status := s }]) := by
  have hst : statusStr j = s := by rw [statusStr, hs]
  constructor
  · intro hc v hv
    have hproc := processToolCall_matched tc j s (MsgVar.pyObj (TraceEntry.assistant [tc])) hs
      (fun _ => by rw [hv]; rfl) (fun hn => absurd hc hn)
    show (match processEntry (some (TraceEntry.toolMsg tc.id (JContent.ok j)))
            (MsgVar.pyObj (TraceEntry.assistant [tc])) [tc] with
      | Except.error e => Except.error e
      | Except.ok rs =>
        match extractAux [TraceEntry.toolMsg tc.id (JContent.ok j)] with
        | Except.error e => Except.error e
        | Except.ok more => Except.ok (rs ++ more)) = _
    simp only [processEntry, hproc]
    simp [expectedRecord, matchField, hst, if_pos hc, hv, extractAux]
  · intro hc v hv
    have hproc := processToolCall_matched tc j s (MsgVar.pyObj (TraceEntry.assistant [tc])) hs
      (fun hy => absurd hy hc) (fun _ => by rw [hv]; rfl)
    show (match processEntry (some (TraceEntry.toolMsg tc.id (JContent.ok j)))
            (MsgVar.pyObj (TraceEntry.assistant [tc])) [tc] with
      | Except.error e => Except.error e
      | Except.ok rs =>
        match extractAux [TraceEntry.toolMsg tc.id (JContent.ok j)] with
        | Except.error e => Except.error e
        | Except.ok more => Except.ok (rs ++ more)) = _
    simp only [processEntry, hproc]
    simp [expectedRecord, matchField, hst, if_neg hc, hv, extractAux]

/-- Witness for C6 at the successful manuals search `actB`/`contentB`. -/
theorem c6_witness :
    jGet contentB "status" = some (Json.str "success") ∧
    ((actB.name = "search_company_manuals" ∧ "success" = "success") →
      ∀ v, jGet contentB "sources" = some v →
        extract_tool_calls_from_trace
            (some [TraceEntry.assistant [actB], TraceEntry.toolMsg actB.id (JContent.ok contentB)]) =
          Except.ok [{ name := actB.name, input := dumps actB.args
                     , output := dumps v, status := "success" }]) ∧
    (¬(actB.name = "search_company_manuals" ∧ "success" = "success") →
      ∀ v, jGet contentB "message" = some v →
        extract_tool_calls_from_trace
            (some [TraceEntry.assistant [actB], TraceEntry.toolMsg actB.id (JContent.ok contentB)]) =
          Except.ok [{ name := actB.name, input := dumps actB.args
                     , output := dumps v, status := "success" }]) :=
  ⟨rfl, (c6_output_field_selection actB contentB "success" rfl).1,
        (c6_output_field_selection actB contentB "success" rfl).2⟩

/-- Among actions with pairwise-distinct identifiers, at most one can
carry any given identifier. -/
theorem countP_le_one_of_pairwise_ne (tcs : List ToolCallReq)
    (hids : tcs.Pairwise (fun a b => a.id ≠ b.id)) (tid : String) :
    tcs.countP (fun tc => tc.id == tid) ≤ 1 := by
  induction tcs with
  | nil => simp
  | cons a l ih =>
    rw [List.countP_cons]
    obtain ⟨hhead, htail⟩ := List.pairwise_cons.mp hids
    by_cases ha : a.id = tid
    · have hz : l.countP (fun tc => tc.id == tid) = 0 := by
        rw [List.countP_eq_zero]
        intro b hb
        simp only [beq_iff_eq]
        intro hbeq
        exact hhead b hb (by rw [ha, hbeq])
      simp [hz, ha]
    · have := ih htail
      simp only [beq_iff_eq, ha]
      simpa using this

/-- C10: for an assistant entry carrying two or more actions with
distinct identifiers, at most one action can match the single entry
immediately following it, and the extraction of the whole trace is the
records produced from that entry and its immediate successor alone,
composed with the extraction of the remainder — matching result entries
appearing later in the trace are never consulted. -/
theorem c10_single_lookahead (tcs : List ToolCallReq) (h2 : 2 ≤ tcs.length)
    (hids : tcs.Pairwise (fun a b => a.id ≠ b.id)) (tid : String) (c : JContent)
    (rest : List TraceEntry) :
    tcs.countP (fun tc => tc.id == tid) ≤ 1 ∧
    extract_tool_calls_from_trace
        (some (TraceEntry.assistant tcs :: TraceEntry.toolMsg tid c :: rest)) =
      combineResults
        (extract_tool_calls_from_trace
          (some [TraceEntry.assistant tcs, TraceEntry.toolMsg tid c]))
        (extract_tool_calls_from_trace (some rest)) := by
  refine ⟨countP_le_one_of_pairwise_ne tcs hids tid, ?_⟩
  obtain ⟨a, l, rfl⟩ : ∃ a l, tcs = a :: l := by
    cases tcs with
    | nil => simp at h2
    | cons a l => exact ⟨a, l, rfl⟩
  have h1 : extract_tool_calls_from_trace
      (some (TraceEntry.assistant (a :: l) :: TraceEntry.toolMsg tid c :: rest)) =
    (match processEntry (some (TraceEntry.toolMsg tid c))
        (MsgVar.pyObj (TraceEntry.assistant (a :: l))) (a :: l) with
     | Except.error e => Except.error e
     | Except.ok rs =>
       match extractAux rest with
       | Except.error e => Except.error e
       | Except.ok more => Except.ok (rs ++ more)) := rfl
  have hpair : extract_tool_calls_from_trace
      (some [TraceEntry.assistant (a :: l), TraceEntry.toolMsg tid c]) =
    (match processEntry (some (TraceEntry.toolMsg tid c))
        (MsgVar.pyObj (TraceEntry.assistant (a :: l))) (a :: l) with
     | Except.error e => Except.error e
     | Except.ok rs => Except.ok (rs ++ [])) := rfl
  have h3 : extract_tool_calls_from_trace (some rest) = extractAux rest := rfl
  rw [h1, hpair, h3]
  cases hpe : processEntry (some (TraceEntry.toolMsg tid c))
      (MsgVar.pyObj (TraceEntry.assistant (a :: l))) (a :: l) with
  | error e => rfl
  | ok rs =>
    cases hex : extractAux rest with
    | error e => rfl
    | ok more => simp [combineResults]

/-- Witness for C10 at a two-action entry whose second action's matching
result appears later in the trace. -/
theorem c10_witness :
    2 ≤ ([actA, actB] : List ToolCallReq).length ∧
    ([actA, actB] : List ToolCallReq).Pairwise (fun a b => a.id ≠ b.id) ∧
    (([actA, actB] : List ToolCallReq).countP (fun tc => tc.id == "id1") ≤ 1 ∧
     extract_tool_calls_from_trace
         (some (TraceEntry.assistant [actA, actB] ::
                TraceEntry.toolMsg "id1" (JContent.ok contentA) ::
                [TraceEntry.toolMsg "id2" (JContent.ok contentB)])) =
       combineResults
         (extract_tool_calls_from_trace
           (some [TraceEntry.assistant [actA, actB],
                  TraceEntry.toolMsg "id1" (JContent.ok contentA)]))
         (extract_tool_calls_from_trace
           (some [TraceEntry.toolMsg "id2" (JContent.ok contentB)]))) :=
  ⟨by decide, by decide,
   c10_single_lookahead [actA, actB] (by decide) (by decide) "id1" (JContent.ok contentA)
     [TraceEntry.toolMsg "id2" (JContent.ok contentB)]⟩

/-! ### Window-processor request handling (claims C2, C3, C4, C7) -/

/-- C4: evaluated at the failing input — the target customer has a
persisted analytics record whose memory is the non-empty `memM`, yet
`get_past_call_summary` never returns it (nor an empty MemoryBox): the
call raises `ParamValidationError`, because `ScanIndexForward` is not a
valid `Scan` parameter and the `except ClientError` clause does not
catch a `BotoCoreError`.  The exception escapes `lambda_handler`, as the
handler-level evaluation shows: the whole operation crashes after the
history query. -/
theorem c4_scan_raises_param_validation :
    get_past_call_summary analyticsTable (Json.str "sarah@x.com") =
      Except.error PyErr.paramValidationError ∧
    anTarget ∈ analyticsTable ∧
    anTarget.client_email = "sarah@x.com" ∧
    loads anTarget.memory = Except.ok memM ∧
    memM ≠ Json.obj [] ∧
    lambda_handler envC payGood =
      (Except.error PyErr.paramValidationError, [ExtCall.historyQuery]) := by
  refine ⟨rfl, List.mem_cons_of_mem anOther (List.mem_cons_self anTarget []), rfl, rfl, ?_, rfl⟩
  simp [memM]

/-- Counterexample to C2: a request whose `window_num` is the negative
integer `-1` and whose `turns` is the empty list is not rejected with a
bad-request before any external call: it passes validation, the history
store is queried, and the operation then dies of the analytics scan's
uncaught `ParamValidationError` — an internal crash after a store call,
not an InputError with zero side effects. -/
theorem c2_counterexample :
    (lambda_handler envA payNegWindow).1 = Except.error PyErr.paramValidationError ∧
    (lambda_handler envA payNegWindow).1 ≠ Except.ok HandlerOutcome.badRequest ∧
    (lambda_handler envA payNegWindow).2 = [ExtCall.historyQuery] :=
  ⟨rfl, fun h => Except.noConfusion h, rfl⟩

/-- Step 1 of the handler raises exactly when one of the four required
fields is missing or `int(window_num)` fails. -/
theorem parsePayload_error_iff (payload : Json) :
    parsePayload payload = Except.error () ↔ RequiredFieldBad payload := by
  unfold parsePayload RequiredFieldBad
  cases h1 : jGet payload "call_id" with
  | none => simp [h1]
  | some cid =>
    cases h2 : jGet payload "window_num" with
    | none => simp [h1, h2]
    | some wj =>
      cases h3 : pyInt wj with
      | none => simp [h1, h2, h3]
      | some w =>
        cases h4 : jGet payload "turns" with
        | none => simp [h1, h2, h3, h4]
        | some t =>
          cases h5 : jGet payload "client_email" with
          | none => simp [h1, h2, h3, h4, h5]
          | some ce => simp [h1, h2, h3, h4, h5]

/-- C2 as amended: the operation fails with a bad-request before any
external call (zero side effects) exactly when `call_id`, `window_num`,
`turns` or `client_email` is missing or `int(window_num)` fails;
neither the non-negativity of `window_num` nor the shape or
non-emptiness of `turns` is checked, and a request that passes this
validation queries the history store and then crashes at the analytics
scan. -/
theorem c2_required_fields_only (env : Env) (payload : Json) :
    lambda_handler env payload = (Except.ok HandlerOutcome.badRequest, []) ↔
      RequiredFieldBad payload := by
  rw [← parsePayload_error_iff]
  constructor
  · intro h
    cases hp : parsePayload payload with
    | error e => cases e; rfl
    | ok p =>
      exfalso
      cases hdw : decodeWindows (get_call_history env.historyOk env.callRecords
          p.call_id p.window_num) with
      | error e => simp only [lambda_handler, hp, hdw] at h; simp at h
      | ok ch =>
        simp only [lambda_handler, hp, hdw, get_past_call_summary] at h
        simp at h
  · intro h
    simp only [lambda_handler, h]

/-- Witness for C2's amended statement at the empty request object. -/
theorem c2_witness :
    (lambda_handler envA (Json.obj []) = (Except.ok HandlerOutcome.badRequest, []) ↔
      RequiredFieldBad (Json.obj [])) ∧
    RequiredFieldBad (Json.obj []) :=
  ⟨c2_required_fields_only envA (Json.obj []), Or.inl rfl⟩

/-- Counterexample to C3: an otherwise valid request that merely omits
`client_email` is rejected with a bad-request (and nothing is processed),
instead of being processed without a memory lookup. -/
theorem c3_counterexample :
    lambda_handler envA payNoEmail = (Except.ok HandlerOutcome.badRequest, []) :=
  rfl

/-- C3 as amended: `client_email` is required; every request without it
is answered with a bad-request before any external call. -/
theorem c3_email_required (env : Env) (payload : Json)
    (hmiss : jGet payload "client_email" = none) :
    lambda_handler env payload = (Except.ok HandlerOutcome.badRequest, []) := by
  have hperr : parsePayload payload = Except.error () :=
    (parsePayload_error_iff payload).mpr (Or.inr (Or.inr (Or.inr (Or.inr hmiss))))
  simp only [lambda_handler, hperr]

/-- Witness for C3's amended statement at the concrete `payNoEmail`. -/
theorem c3_witness :
    jGet payNoEmail "client_email" = none ∧
    lambda_handler envA payNoEmail = (Except.ok HandlerOutcome.badRequest, []) :=
  ⟨rfl, c3_email_required envA payNoEmail rfl⟩

/-- C7: refuted on the code as written — for every request that passes
validation (and whose fetched history rows decode), the handler raises
the analytics scan's uncaught `ParamValidationError` before the
reasoning service is ever invoked: the reasoning and persistence failure
domains the claim describes are unreachable (the `try`/`except`
structure implementing exactly that policy is dead code), no write ever
happens, and no tips are ever returned. -/
theorem c7_scan_crash_before_reasoning (env : Env) (payload : Json) (p : Payload)
    (hp : parsePayload payload = Except.ok p)
    (ch : List HistoryEntry)
    (hch : decodeWindows (get_call_history env.historyOk env.callRecords
      p.call_id p.window_num) = Except.ok ch) :
    lambda_handler env payload =
      (Except.error PyErr.paramValidationError, [ExtCall.historyQuery]) := by
  simp only [lambda_handler, hp, hch, get_past_call_summary]

/-- Witness for C7's failing-input evaluation in the environment `envB`
(write failing, reasoning invocation ready to succeed): the crash
happens regardless, before the agent or the write. -/
theorem c7_witness :
    parsePayload payGood = Except.ok pGood ∧
    decodeWindows (get_call_history envB.historyOk envB.callRecords
      pGood.call_id pGood.window_num) = Except.ok [] ∧
    lambda_handler envB payGood =
      (Except.error PyErr.paramValidationError, [ExtCall.historyQuery]) :=
  ⟨rfl, rfl, c7_scan_crash_before_reasoning envB payGood pGood rfl [] rfl⟩

/-! ### History store ordering (claims C8, C9) -/

/-- Sorting by `window_number` of a list with pairwise-distinct window
numbers is strictly increasing. -/
theorem insertionSort_pairwise_lt (l : List WindowItem)
    (hne : l.Pairwise (fun a b => a.window_number ≠ b.window_number)) :
    (List.insertionSort (fun a b => a.window_number ≤ b.window_number) l).Pairwise
      (fun a b => a.window_number < b.window_number) := by
  haveI : IsTotal WindowItem (fun a b => a.window_number ≤ b.window_number) :=
    ⟨fun a b => Int.le_total a.window_number b.window_number⟩
  haveI : IsTrans WindowItem (fun a b => a.window_number ≤ b.window_number) :=
    ⟨fun a b c hab hbc => le_trans hab hbc⟩
  have hs : (List.insertionSort (fun a b => a.window_number ≤ b.window_number) l).Pairwise
      (fun a b => a.window_number ≤ b.window_number) :=
    List.sorted_insertionSort _ l
  have hne' : (List.insertionSort (fun a b => a.window_number ≤ b.window_number) l).Pairwise
      (fun a b => a.window_number ≠ b.window_number) :=
    ((List.perm_insertionSort _ l).pairwise_iff (fun {a b} h => Ne.symm h)).mpr hne
  exact (hs.and hne').imp (fun h => lt_of_le_of_ne h.1 h.2)

/-- C8: over any stored table with unique `(call_id, window_number)`
keys, the history fetched for a call and current window number consists
of exactly the stored windows of that call with strictly smaller window
number, in strictly increasing `window_number` order; the current window
is never included, and a call with no qualifying stored window (its first
window in particular) yields the empty history, not an error. -/
theorem c8_history_query (storeTable : List WindowItem) (cid : String) (w : Int)
    (huniq : storeTable.Pairwise
      (fun a b => a.call_id = b.call_id → a.window_number ≠ b.window_number)) :
    (∀ it, it ∈ get_call_history true storeTable (Json.str cid) w ↔
      (it ∈ storeTable ∧ it.call_id = cid ∧ it.window_number < w)) ∧
    ((get_call_history true storeTable (Json.str cid) w).map
      (fun it => it.window_number)).Pairwise (fun a b => a < b) ∧
    (∀ it ∈ get_call_history true storeTable (Json.str cid) w, it.window_number ≠ w) ∧
    ((∀ it ∈ storeTable, ¬(it.call_id = cid ∧ it.window_number < w)) →
      get_call_history true storeTable (Json.str cid) w = []) := by
  have hpred : ∀ it : WindowItem,
      ((jeqStr (Json.str cid) it.call_id && decide (it.window_number < w)) = true) ↔
      (it.call_id = cid ∧ it.window_number < w) := by
    intro it
    simp only [jeqStr, Bool.and_eq_true, beq_iff_eq, decide_eq_true_eq]
    exact and_congr_left (fun _ => eq_comm)
  have hmem : ∀ it, it ∈ get_call_history true storeTable (Json.str cid) w ↔
      (it ∈ storeTable ∧ it.call_id = cid ∧ it.window_number < w) := by
    intro it
    show it ∈ ddb_query_windows storeTable (Json.str cid) w ↔ _
    rw [ddb_query_windows, List.mem_insertionSort, List.mem_filter, hpred it]
  refine ⟨hmem, ?_, ?_, ?_⟩
  · have hsub : (storeTable.filter
        (fun it => jeqStr (Json.str cid) it.call_id && decide (it.window_number < w))).Sublist
        storeTable := List.filter_sublist _
    have huniqL := huniq.sublist hsub
    have hneL : (storeTable.filter
        (fun it => jeqStr (Json.str cid) it.call_id && decide (it.window_number < w))).Pairwise
        (fun a b => a.window_number ≠ b.window_number) := by
      refine huniqL.imp_of_mem ?_
      intro a b ha hb hab
      have ha' : a.call_id = cid := ((hpred a).mp (List.mem_filter.mp ha).2).1
      have hb' : b.call_id = cid := ((hpred b).mp (List.mem_filter.mp hb).2).1
      exact hab (ha'.trans hb'.symm)
    rw [List.pairwise_map]
    exact insertionSort_pairwise_lt _ hneL
  · intro it hit
    exact ne_of_lt ((hmem it).mp hit).2.2
  · intro hnone
    show List.insertionSort _ (storeTable.filter _) = []
    rw [List.filter_eq_nil_iff.mpr (fun a ha => by
      intro hcontra
      exact hnone a ha ((hpred a).mp hcontra))]
    rfl

/-- Witness for C8 over the scrambled four-window table. -/
theorem c8_witness :
    (windowTable.Pairwise
      (fun a b => a.call_id = b.call_id → a.window_number ≠ b.window_number)) ∧
    ((∀ it, it ∈ get_call_history true windowTable (Json.str "c1") 2 ↔
       (it ∈ windowTable ∧ it.call_id = "c1" ∧ it.window_number < 2)) ∧
     ((get_call_history true windowTable (Json.str "c1") 2).map
       (fun it => it.window_number)).Pairwise (fun a b => a < b) ∧
     (∀ it ∈ get_call_history true windowTable (Json.str "c1") 2, it.window_number ≠ 2) ∧
     ((∀ it ∈ windowTable, ¬(it.call_id = "c1" ∧ it.window_number < 2)) →
       get_call_history true windowTable (Json.str "c1") 2 = [])) :=
  ⟨by decide, c8_history_query windowTable "c1" 2 (by decide)⟩

/-- Decoding the fetched windows succeeds exactly pointwise, preserving
length and order. -/
theorem pca_decodeAll_ok : ∀ (l : List WindowItem) (entries : List PayloadEntry),
    pca_decodeAll l = Except.ok entries →
    entries.length = l.length ∧
    ∀ k (hk : k < l.length) (hk2 : k < entries.length),
      pca_decode (l.get ⟨k, hk⟩) = Except.ok (entries.get ⟨k, hk2⟩) := by
  intro l
  induction l with
  | nil =>
    intro entries h
    have he : entries = [] := by
      simpa [pca_decodeAll] using h.symm
    subst he
    exact ⟨rfl, fun k hk hk2 => absurd hk (by simp)⟩
  | cons it rest ih =>
    intro entries h
    rw [pca_decodeAll] at h
    cases hd : pca_decode it with
    | error e => rw [hd] at h; exact Except.noConfusion h
    | ok p =>
      rw [hd] at h
      cases hr : pca_decodeAll rest with
      | error e => rw [hr] at h; exact Except.noConfusion h
      | ok ps =>
        rw [hr] at h
        injection h with h2
        subst h2
        obtain ⟨ih1, ih2⟩ := ih ps hr
        refine ⟨by simp [ih1], ?_⟩
        intro k hk hk2
        cases k with
        | zero => simpa using hd
        | succ k' =>
          simpa using ih2 k' (by simpa using hk) (by simpa using hk2)

/-- Membership in the aggregator's fetch: exactly the stored windows of
the call. -/
theorem pca_fetch_mem (table : List WindowItem) (cid : String) :
    ∀ it, it ∈ pca_fetch table cid ↔ (it ∈ table ∧ it.call_id = cid) := by
  intro it
  rw [pca_fetch, List.mem_insertionSort, List.mem_filter, beq_iff_eq]

/-- The windows of one call have pairwise-distinct window numbers under
key uniqueness. -/
theorem pca_fetch_pairwise_ne (table : List WindowItem) (cid : String)
    (huniq : table.Pairwise
      (fun a b => a.call_id = b.call_id → a.window_number ≠ b.window_number)) :
    (table.filter (fun it => it.call_id == cid)).Pairwise
      (fun a b => a.window_number ≠ b.window_number) := by
  have huniqL : (table.filter (fun it => it.call_id == cid)).Pairwise
      (fun a b => a.call_id = b.call_id → a.window_number ≠ b.window_number) :=
    huniq.sublist (List.filter_sublist _)
  refine huniqL.imp_of_mem ?_
  intro a b ha hb hab
  have ha' : a.call_id = cid := by simpa using (List.mem_filter.mp ha).2
  have hb' : b.call_id = cid := by simpa using (List.mem_filter.mp hb).2
  exact hab (ha'.trans hb'.symm)

/-- C9: over any stored table with unique `(call_id, window_number)` keys,
the finalize-call aggregation fetches exactly the windows of the call in
strictly ascending `window_number` order, decodes them pointwise into the
flat `\x7bactivityFeed, aiTips, turns\x7d` timeline preserving that
order, and is invariant under any permutation of the physical table
order. -/
theorem c9_aggregation (table table' : List WindowItem) (cid : String)
    (huniq : table.Pairwise
      (fun a b => a.call_id = b.call_id → a.window_number ≠ b.window_number))
    (hperm : table.Perm table') :
    pca_payload table cid = pca_payload table' cid ∧
    ((pca_fetch table cid).map (fun it => it.window_number)).Pairwise (fun a b => a < b) ∧
    (∀ it, it ∈ pca_fetch table cid ↔ (it ∈ table ∧ it.call_id = cid)) ∧
    (∀ entries, pca_payload table cid = Except.ok entries →
      entries.length = (pca_fetch table cid).length ∧
      ∀ k (hk : k < (pca_fetch table cid).length) (hk2 : k < entries.length),
        pca_decode ((pca_fetch table cid).get ⟨k, hk⟩) = Except.ok (entries.get ⟨k, hk2⟩)) := by
  have hsymmS : ∀ {a b : WindowItem},
      (a.call_id = b.call_id → a.window_number ≠ b.window_number) →
      (b.call_id = a.call_id → b.window_number ≠ a.window_number) :=
    fun h hba => Ne.symm (h hba.symm)
  have huniq' : table'.Pairwise
      (fun a b => a.call_id = b.call_id → a.window_number ≠ b.window_number) :=
    (hperm.pairwise_iff hsymmS).mp huniq
  have hfeq : pca_fetch table cid = pca_fetch table' cid := by
    haveI : IsAntisymm WindowItem (fun a b => a.window_number < b.window_number) :=
      ⟨fun a b h1 h2 => absurd h1 (lt_asymm h2)⟩
    refine List.eq_of_perm_of_sorted
      (r := fun a b : WindowItem => a.window_number < b.window_number) ?_ ?_ ?_
    · exact (List.perm_insertionSort _ _).trans
        ((hperm.filter _).trans (List.perm_insertionSort _ _).symm)
    · exact insertionSort_pairwise_lt _ (pca_fetch_pairwise_ne table cid huniq)
    · exact insertionSort_pairwise_lt _ (pca_fetch_pairwise_ne table' cid huniq')
  refine ⟨?_, ?_, pca_fetch_mem table cid, ?_⟩
  · rw [pca_payload, pca_payload, hfeq]
  · rw [List.pairwise_map]
    exact insertionSort_pairwise_lt _ (pca_fetch_pairwise_ne table cid huniq)
  · intro entries h
    exact pca_decodeAll_ok (pca_fetch table cid) entries h

/-- Witness for C9: windows 0, 1, 2 with tips A, B, C, stored physically
as `[1, 0, 2]`, aggregate to the timeline A, B, C, and permuting the
physical order does not change the payload. -/
theorem c9_witness :
    (([w1, w0, w2] : List WindowItem).Pairwise
      (fun a b => a.call_id = b.call_id → a.window_number ≠ b.window_number)) ∧
    (pca_payload [w1, w0, w2] "c1" = pca_payload [w0, w1, w2] "c1" ∧
     ((pca_fetch [w1, w0, w2] "c1").map (fun it => it.window_number)).Pairwise
       (fun a b => a < b) ∧
     (∀ it, it ∈ pca_fetch [w1, w0, w2] "c1" ↔ (it ∈ [w1, w0, w2] ∧ it.call_id = "c1")) ∧
     (∀ entries, pca_payload [w1, w0, w2] "c1" = Except.ok entries →
       entries.length = (pca_fetch [w1, w0, w2] "c1").length ∧
       ∀ k (hk : k < (pca_fetch [w1, w0, w2] "c1").length) (hk2 : k < entries.length),
         pca_decode ((pca_fetch [w1, w0, w2] "c1").get ⟨k, hk⟩) =
           Except.ok (entries.get ⟨k, hk2⟩))) ∧
    pca_payload [w1, w0, w2] "c1" =
      Except.ok
        [{ activityFeed := Json.arr [], aiTips := Json.arr [Json.str "A"], turns := Json.arr [] },
         { activityFeed := Json.arr [], aiTips := Json.arr [Json.str "B"], turns := Json.arr [] },
         { activityFeed := Json.arr [], aiTips := Json.arr [Json.str "C"], turns := Json.arr [] }] :=
  ⟨by decide,
   c9_aggregation [w1, w0, w2] [w0, w1, w2] "c1" (by decide) (List.Perm.swap w0 w1 [w2]),
   rfl⟩

end LiveAssist
